import Mathlib

/-!
Verification of the DALI argument-specification / resolution core (`op_spec.h`),
the byte-source file stream (`std_file.cc`) and the decode-backend dispatch,
via a shallow embedding in Lean 4.

The embedding follows the C++ sources.  Collaborator components whose bodies
are not part of the four source files (`Argument` storage, `OpSchema` default
lookup, `ArgumentWorkspace` lookup, `OpSpec::SetInitializedArg`,
`OpSpec::AddInput` / `AddArgumentInput` / `AddOutput`, and the decode dispatch
predicates) are modelled from the design specification; each such definition is
marked `Modelled from the spec:` in its doc comment.
-/

namespace Dali

/-- Semantic storage types of argument values (the closed set of tags of the
tagged-union value representation; stands for `argument_storage_t`). -/
inductive SType
  | sInt
  | sBool
  | sString
  | sVecInt
  | sVecString
deriving DecidableEq, Repr

/-- Modelled from the spec: a type-tagged argument value ("tagged-union/variant
value representation keyed by a small closed set of semantic types"); the body
of `Argument` (`argument.h`) is not under `src/`. -/
inductive Val
  | i (n : Int)
  | b (bv : Bool)
  | s (sv : String)
  | li (ns : List Int)
  | ls (ss : List String)
deriving DecidableEq, Repr

/-- The storage-type tag of a value. -/
def Val.stype : Val → SType
  | .i _ => .sInt
  | .b _ => .sBool
  | .s _ => .sString
  | .li _ => .sVecInt
  | .ls _ => .sVecString

/-- The error taxonomy of the design (DALI_ENFORCE failures mapped to the
spec's error names). -/
inductive Err
  | NoSchema
  | MissingContext (name : String)
  | NoArgumentInput (name : String)
  | NotUniform (name : String)
  | ShapeMismatch (name : String) (batchSize : Int)
  | TypeMismatch (name : String)
  | UnknownArgument (name : String)
  | NoDefault (name : String)
  | ConflictingSpecification (name : String)
  | IndexOutOfRange (name : String) (idx : Nat)
  | InvalidIndex (idx : Nat)
  | NotArgumentInput (idx : Nat)
  | InvalidDevice (device : String)
deriving DecidableEq, Repr

/-- A named, typed literal argument stored on an `OpSpec`. -/
structure Argument where
  name : String
  value : Val
deriving DecidableEq, Repr

/-- Modelled from the spec: one declared argument of a `Schema` ("set of
declared argument names -> {semantic type, optional default value, required
flag}"); `op_schema.h` is not under `src/`. -/
structure SchemaArg where
  name : String
  default : Option Val
deriving DecidableEq, Repr

/-- Modelled from the spec: an operator `Schema` with its declared arguments
and its deprecated-alias mapping ("old name -> new name, possibly removed",
where `none` as the target means removed); `op_schema.h` is not under `src/`. -/
structure OpSchema where
  args : List SchemaArg
  deprecated : List (String × Option String)
deriving DecidableEq, Repr

/-- A batch of per-sample tensors bound to one argument-input name: per-sample
shapes and per-sample flattened element lists, with one element type tag. -/
structure TensorList where
  dtype : SType
  shapes : List (List Nat)
  data : List (List Val)
deriving DecidableEq, Repr

/-- Modelled from the spec: the per-iteration `ArgumentWorkspace`, a "mapping
from argument-input name to the concrete per-sample tensor values";
`workspace.h` is not under `src/`. -/
structure ArgumentWorkspace where
  bindings : List (String × TensorList)
deriving DecidableEq, Repr

/-- An input or output descriptor: `OpSpec::InOutDeviceDesc` (name, device). -/
structure InOutDev where
  name : String
  device : String
deriving DecidableEq, Repr

/-- The `OpSpec` state: schema reference, literal arguments in addition order,
argument inputs (argument name, input tensor name) in addition order, regular
inputs, outputs, and the provenance record of arguments set through deprecated
aliases (`set_through_deprecated_arguments_`, regular name -> deprecated name).
The spec's data model stores argument inputs as their own ordered sequence;
the combined input sequence is derived (see `inputsList`). -/
structure OpSpec where
  schema : Option OpSchema := none
  arguments : List Argument := []
  argumentInputs : List (String × String) := []
  regularInputs : List InOutDev := []
  outputs : List InOutDev := []
  setThroughDeprecated : List (String × String) := []
  diagnostics : List String := []
deriving DecidableEq, Repr

/-- `OpSpec::GetSchema`: enforces that a schema was found. -/
def getSchema (spec : OpSpec) : Except Err OpSchema :=
  match spec.schema with
  | some sch => .ok sch
  | none => .error .NoSchema

/-- `OpSpec::HasTensorArgument`: whether `name` is in the argument-input map. -/
def OpSpec.hasTensorArgument (spec : OpSpec) (name : String) : Bool :=
  spec.argumentInputs.any (fun p => decide (p.1 = name))

/-- Lookup of a literal argument by name (`argument_idxs_.find` followed by
indexing into `arguments_`; names are unique so the first match is it). -/
def findLocal (spec : OpSpec) (name : String) : Option Argument :=
  spec.arguments.find? (fun a => decide (a.name = name))

/-- `OpSpec::HasArgument`: whether a literal argument with `name` is present. -/
def OpSpec.hasArgument (spec : OpSpec) (name : String) : Bool :=
  (findLocal spec name).isSome

/-- Modelled from the spec: `Argument::Get<S>` — the stored representation
type is fixed at creation and the read fails if the requested storage type is
incompatible (`argument.h` is not under `src/`). -/
def argGet (a : Argument) (tS : SType) : Except Err Val :=
  if a.value.stype = tS then .ok a.value else .error (.TypeMismatch a.name)

/-- Schema lookup of a declared argument by name. -/
def schemaFindArg (sch : OpSchema) (name : String) : Option SchemaArg :=
  sch.args.find? (fun a => decide (a.name = name))

/-- The declared default value of a schema argument, if any. -/
def schemaFindDefault (sch : OpSchema) (name : String) : Option Val :=
  match schemaFindArg sch name with
  | some sa => sa.default
  | none => none

/-- Whether the schema declares a default value for `name`
(`OpSchema::HasArgumentDefaultValue`). -/
def schemaHasDefault (sch : OpSchema) (name : String) : Bool :=
  (schemaFindDefault sch name).isSome

/-- Modelled from the spec: `OpSchema::GetDefaultValueForArgument<S>` — "fails
with UnknownArgument if the schema declares no such argument and NoDefault if
it declares the argument but no default"; an incompatible stored type fails at
the access boundary (`op_schema.h` is not under `src/`). -/
def schemaDefault (sch : OpSchema) (tS : SType) (name : String) : Except Err Val :=
  match schemaFindArg sch name with
  | none => .error (.UnknownArgument name)
  | some sa =>
    match sa.default with
    | none => .error (.NoDefault name)
    | some d => if d.stype = tS then .ok d else .error (.TypeMismatch name)

/-- Modelled from the spec: `ArgumentWorkspace::ArgumentInput` lookup result
for a name (the workspace holds a name-to-tensor mapping); a missing binding
is an error in the caller. -/
def wsLookup (w : ArgumentWorkspace) (name : String) : Option TensorList :=
  match w.bindings.find? (fun p => decide (p.1 = name)) with
  | some p => some p.2
  | none => none

/-- `volume` of one sample shape: the product of its extents (1 for rank 0). -/
def volume (s : List Nat) : Nat :=
  s.foldl (fun a bdim => a * bdim) 1

/-- `is_uniform`: all samples of the batch have the same shape. -/
def isUniform (shapes : List (List Nat)) : Bool :=
  match shapes with
  | [] => true
  | s :: rest => rest.all (fun t => decide (t = s))

/-- Whether one sample shape is accepted by the scalar-argument check:
`volume(shape[i]) == 1 || shape[i].empty()`. -/
def scalarSample (s : List Nat) : Bool :=
  decide (volume s = 1) || s.isEmpty

/-- `OpSpec::CheckScalarArgumentShape`: enforces uniformity unconditionally;
then each sample must hold exactly one element or have an empty shape;
with `shouldThrow` an invalid shape is a `ShapeMismatch` error naming the
argument and the batch size, otherwise the validity is returned. -/
def checkScalarArgumentShape (shapes : List (List Nat)) (batchSize : Int)
    (name : String) (shouldThrow : Bool) : Except Err Bool :=
  if isUniform shapes then
    let valid := shapes.all scalarSample
    if shouldThrow && !valid then .error (.ShapeMismatch name batchSize)
    else .ok valid
  else .error (.NotUniform name)

/-- The element of sample `idx` read by `value.tensor<T>(idx)[0]`. -/
def tensorElem (tl : TensorList) (idx : Nat) : Option Val :=
  match tl.data.get? idx with
  | some xs => xs.head?
  | none => none

/-- `OpSpec::GetArgumentImpl` restricted to a null workspace: the tensor-
argument branch fails with `MissingContext` immediately, so only the literal
and schema-default tiers remain.  This is the resolution performed by the
internal `GetArgument<int>("max_batch_size")` call (default arguments:
null workspace, index 0). -/
def getArgumentNullWs (spec : OpSpec) (tS : SType) (name : String) : Except Err Val :=
  if spec.hasTensorArgument name then .error (.MissingContext name)
  else
    match findLocal spec name with
    | some a => argGet a tS
    | none =>
      match getSchema spec with
      | .ok sch => schemaDefault sch tS name
      | .error e => .error e

/-- The batch size used by the scalar-shape check:
`GetArgument<int>("max_batch_size")` with a null workspace. -/
def getBatchSize (spec : OpSpec) : Except Err Int :=
  match getArgumentNullWs spec .sInt "max_batch_size" with
  | .ok (.i n) => .ok n
  | .ok _ => .error (.TypeMismatch "max_batch_size")
  | .error e => .error e

/-- Tier 1 of `OpSpec::GetArgumentImpl` with a workspace present: fetch the
bound tensor, check the scalar shape (throwing), check the element type
against the requested type, and read element 0 of sample `idx`. -/
def readTensorArg (spec : OpSpec) (tT : SType) (name : String)
    (w : ArgumentWorkspace) (idx : Nat) : Except Err Val :=
  match wsLookup w name with
  | none => .error (.NoArgumentInput name)
  | some tl =>
    match getBatchSize spec with
    | .error e => .error e
    | .ok bs =>
      match checkScalarArgumentShape tl.shapes bs name true with
      | .error e => .error e
      | .ok _ =>
        if tl.dtype = tT then
          match tensorElem tl idx with
          | some v => .ok v
          | none => .error (.IndexOutOfRange name idx)
        else .error (.TypeMismatch name)

/-- `OpSpec::GetArgumentImpl<T, S>`: tensor-argument tier first (requiring a
workspace), then the locally stored literal, then the schema default. -/
def getArgumentImpl (spec : OpSpec) (tT tS : SType) (name : String)
    (ws : Option ArgumentWorkspace) (idx : Nat) : Except Err Val :=
  if spec.hasTensorArgument name then
    match ws with
    | none => .error (.MissingContext name)
    | some w => readTensorArg spec tT name w idx
  else
    match findLocal spec name with
    | some a => argGet a tS
    | none =>
      match getSchema spec with
      | .ok sch => schemaDefault sch tS name
      | .error e => .error e

/-- `OpSpec::TryGetArgumentImpl<T, S>`: same tier order as `GetArgumentImpl`,
returning `some`/`none` in place of success/failure — but the embedded
enforcement points that remain are faithful to the code: the workspace lookup,
the batch-size resolution, the uniformity check inside
`CheckScalarArgumentShape` (called with `should_throw = false`), and
`GetSchema()` (fetched before the local lookup is inspected) can still fail. -/
def tryGetArgumentImpl (spec : OpSpec) (tT tS : SType) (name : String)
    (ws : Option ArgumentWorkspace) (idx : Nat) : Except Err (Option Val) :=
  if spec.hasTensorArgument name then
    match ws with
    | none => .ok none
    | some w =>
      match wsLookup w name with
      | none => .error (.NoArgumentInput name)
      | some tl =>
        match getBatchSize spec with
        | .error e => .error e
        | .ok bs =>
          match checkScalarArgumentShape tl.shapes bs name false with
          | .error e => .error e
          | .ok valid =>
            if !valid then .ok none
            else if tl.dtype = tT then
              match tensorElem tl idx with
              | some v => .ok (some v)
              | none => .error (.IndexOutOfRange name idx)
            else .ok none
  else
    match getSchema spec with
    | .error e => .error e
    | .ok sch =>
      match findLocal spec name with
      | some a =>
        if a.value.stype = tS then .ok (some a.value) else .ok none
      | none =>
        if (schemaFindArg sch name).isSome && schemaHasDefault sch name then
          match schemaFindDefault sch name with
          | some d => if d.stype = tS then .ok (some d) else .ok none
          | none => .ok none
        else .ok none

/-- Stores a literal argument under `name`, replacing an existing argument of
that name or appending a new one (the storage step of `SetInitializedArg`:
"Sets or adds an argument with given name"). -/
def setLocalArg (spec : OpSpec) (name : String) (v : Val) : OpSpec :=
  if (findLocal spec name).isSome then
    { spec with arguments :=
        spec.arguments.map (fun a => if a.name = name then ⟨name, v⟩ else a) }
  else
    { spec with arguments := spec.arguments ++ [⟨name, v⟩] }

/-- The deprecation entry of `name` in the spec's schema: `none` when not
deprecated, `some none` when removed, `some (some newName)` when renamed. -/
def schemaDeprecation (spec : OpSpec) (name : String) : Option (Option String) :=
  match spec.schema with
  | none => none
  | some sch =>
    match sch.deprecated.find? (fun p => decide (p.1 = name)) with
    | some p => some p.2
    | none => none

/-- Modelled from the spec: `OpSpec::SetInitializedArg` (its body, in
`op_spec.cc`, is not under `src/`) — "setting an argument under an old name
rewrites it to the new name (or drops it if the alias says removed, with a
recorded diagnostic); if both the old and new names are set on the same
OpSpec, this is flagged as a conflicting double-specification and rejected at
the second AddArg/SetArg call", with the provenance record
(`set_through_deprecated_arguments_`) used to detect the double-set case. -/
def setInitArg (spec : OpSpec) (name : String) (v : Val) : Except Err OpSpec :=
  match schemaDeprecation spec name with
  | some none =>
    .ok { spec with diagnostics := spec.diagnostics ++ [name] }
  | some (some newName) =>
    if (findLocal spec newName).isSome
        || (spec.setThroughDeprecated.find? (fun p => decide (p.1 = newName))).isSome then
      .error (.ConflictingSpecification newName)
    else
      .ok { setLocalArg spec newName v with
            setThroughDeprecated := spec.setThroughDeprecated ++ [(newName, name)] }
  | none => .ok (setLocalArg spec name v)

/-- Modelled from the spec: `OpSpec::EnforceNoAliasWithDeprecated` (body in
`op_spec.cc`, not under `src/`) — "Check if the `arg_name` was already set
through a deprecated argument" and reject the conflicting double-set. -/
def enforceNoAliasWithDeprecated (spec : OpSpec) (name : String) : Except Err Unit :=
  match spec.setThroughDeprecated.find? (fun p => decide (p.1 = name)) with
  | some p => .error (.ConflictingSpecification p.1)
  | none => .ok ()

/-- `OpSpec::AddArg`: enforce no alias conflict with a deprecated argument,
enforce that no argument with `name` exists yet, then set the argument. -/
def addArg (spec : OpSpec) (name : String) (v : Val) : Except Err OpSpec :=
  match enforceNoAliasWithDeprecated spec name with
  | .error e => .error e
  | .ok _ =>
    if (findLocal spec name).isSome then .error (.ConflictingSpecification name)
    else setInitArg spec name v

/-- The combined input sequence exposed by `NumInput` / `InputName` /
`IsArgumentInput`: regular inputs first, then the argument inputs (which the
accessors of `op_spec.h` address as the tail of the input sequence; argument
inputs are added on the cpu device). -/
def inputsList (spec : OpSpec) : List InOutDev :=
  spec.regularInputs ++ spec.argumentInputs.map (fun p => ⟨p.2, "cpu"⟩)

/-- `OpSpec::NumInput`. -/
def numInput (spec : OpSpec) : Nat := (inputsList spec).length

/-- `OpSpec::NumArgumentInput`. -/
def numArgumentInput (spec : OpSpec) : Nat := spec.argumentInputs.length

/-- `OpSpec::NumRegularInput` = `NumInput() - NumArgumentInput()`. -/
def numRegularInput (spec : OpSpec) : Nat := numInput spec - numArgumentInput spec

/-- `OpSpec::IsArgumentInput`: valid index enforced, then
`idx >= NumRegularInput()`. -/
def isArgumentInput (spec : OpSpec) (idx : Nat) : Except Err Bool :=
  if idx < numInput spec then .ok (decide (numRegularInput spec ≤ idx))
  else .error (.InvalidIndex idx)

/-- `OpSpec::ArgumentInputName`: enforces that `idx` is an argument input,
then returns `argument_inputs_[idx - NumRegularInput()].first`. -/
def argumentInputName (spec : OpSpec) (idx : Nat) : Except Err String :=
  match isArgumentInput spec idx with
  | .error e => .error e
  | .ok false => .error (.NotArgumentInput idx)
  | .ok true =>
    match spec.argumentInputs.get? (idx - numRegularInput spec) with
    | some p => .ok p.1
    | none => .error (.InvalidIndex idx)

/-- `OpSpec::InputName`: the name of the input at `idx`. -/
def inputName (spec : OpSpec) (idx : Nat) : Except Err String :=
  match (inputsList spec).get? idx with
  | some d => .ok d.name
  | none => .error (.InvalidIndex idx)

/-- Modelled from the spec: `OpSpec::AddInput` (body in `op_spec.cc`, not
under `src/`) — appends a (name, device) pair to the regular inputs; the
device must be cpu or gpu. -/
def addInput (spec : OpSpec) (name device : String) : Except Err OpSpec :=
  if device = "cpu" || device = "gpu" then
    .ok { spec with regularInputs := spec.regularInputs ++ [⟨name, device⟩] }
  else .error (.InvalidDevice device)

/-- Modelled from the spec: `OpSpec::AddArgumentInput` (body in `op_spec.cc`,
not under `src/`) — "The input may be added only if corresponding argument
exists in the schema"; an argument name cannot be simultaneously a literal
argument and a tensor argument, and each argument-input name is unique. -/
def addArgumentInput (spec : OpSpec) (argName inpName : String) : Except Err OpSpec :=
  match getSchema spec with
  | .error e => .error e
  | .ok sch =>
    if (schemaFindArg sch argName).isNone then .error (.UnknownArgument argName)
    else if spec.hasTensorArgument argName || (findLocal spec argName).isSome then
      .error (.ConflictingSpecification argName)
    else .ok { spec with argumentInputs := spec.argumentInputs ++ [(argName, inpName)] }

/-- Modelled from the spec: `OpSpec::AddOutput` (body in `op_spec.cc`, not
under `src/`) — appends a (name, device) pair to the outputs. -/
def addOutput (spec : OpSpec) (name device : String) : Except Err OpSpec :=
  if device = "cpu" || device = "gpu" then
    .ok { spec with outputs := spec.outputs ++ [⟨name, device⟩] }
  else .error (.InvalidDevice device)

/-- One construction step of an `OpSpec`. -/
inductive BuildOp
  | inp (name device : String)
  | argInp (argName inpName : String)
  | out (name device : String)
deriving DecidableEq, Repr

/-- Apply one construction step. -/
def applyOp (spec : OpSpec) : BuildOp → Except Err OpSpec
  | .inp name device => addInput spec name device
  | .argInp argName inpName => addArgumentInput spec argName inpName
  | .out name device => addOutput spec name device

/-- Apply a sequence of construction steps. -/
def applyOps (spec : OpSpec) : List BuildOp → Except Err OpSpec
  | [] => .ok spec
  | op :: rest =>
    match applyOp spec op with
    | .ok s2 => applyOps s2 rest
    | .error e => .error e

/-- The operating-system facts the file stream depends on: whether `fopen`
succeeds on a path, and the `strerror(errno)` text after a failure. -/
structure OSEnv where
  openOk : String → Bool
  errText : String

/-- The state of a `StdFileStream`: its path and whether its handle is open. -/
structure StdFileStream where
  path : String
  fpOpen : Bool

/-- `StdFileStream::StdFileStream`: opens the path for binary reading and
enforces that the handle is valid, with a message naming the path and the OS
error text. -/
def mkStdFileStream (env : OSEnv) (path : String) : Except String StdFileStream :=
  if env.openOk path then .ok { path := path, fpOpen := true }
  else .error ("Could not open file " ++ path ++ ": " ++ env.errText)

/-- `StdFileStream::Close`: the handle is closed and nulled. -/
def StdFileStream.close (st : StdFileStream) : StdFileStream :=
  { st with fpOpen := false }

/-- One of the decode backend tiers. -/
inductive Backend
  | hardware
  | hybrid
  | host
deriving DecidableEq, Repr

/-- Image formats occurring in the decode tests. -/
inductive ImgFormat
  | jpeg
  | png
  | bmp
  | tiff
deriving DecidableEq, Repr

/-- Modelled from the spec: the formats the hardware decode engine supports
(JPEG only; other codecs take the host path). -/
def hwSupported : ImgFormat → Bool
  | .jpeg => true
  | _ => false

/-- Modelled from the spec: the formats supporting partial-host /
partial-accelerator (hybrid) decoding (JPEG only). -/
def hybridSupported : ImgFormat → Bool
  | .jpeg => true
  | _ => false

/-- One sample entering the decode dispatch: its format, its pixel count from
the header metadata, and whether the accelerator pool has (or can grow to)
sufficient capacity for it. -/
structure DecodeSample where
  format : ImgFormat
  pixelCount : Nat
  memOk : Bool
deriving DecidableEq, Repr

/-- The dispatch configuration: the startup hardware-capability probe result
and the configured pixel-count threshold (an unsigned 32-bit quantity). -/
structure DispatchConfig where
  hwAvailable : Bool
  threshold : Nat
deriving DecidableEq, Repr

/-- The maximum value of the unsigned 32-bit threshold. -/
def uintMax : Nat := 4294967295

/-- Whether the hardware tier is applicable to a sample: capability detected,
format supported by the hardware engine, and pool capacity available. -/
def hwApplicable (cfg : DispatchConfig) (s : DecodeSample) : Bool :=
  cfg.hwAvailable && hwSupported s.format && s.memOk

/-- Whether the hybrid tier is applicable: the pixel count exceeds the
configured threshold and the format supports hybrid decoding. -/
def hybridApplicable (cfg : DispatchConfig) (s : DecodeSample) : Bool :=
  decide (cfg.threshold < s.pixelCount) && hybridSupported s.format

/-- Modelled from the spec: the decode-backend selection — "an ordered list of
capability predicates evaluated top-down per sample", hardware first, then
hybrid, then the universal host-software fallback (the dispatch engine's code
is not under `src/`; only its tests are). -/
def selectBackend (cfg : DispatchConfig) (s : DecodeSample) : Backend :=
  if hwApplicable cfg s then .hardware
  else if hybridApplicable cfg s then .hybrid
  else .host

/-! Concrete fixtures used to evaluate the definitions. -/

/-- A schema with plain, defaulted and deprecated arguments. -/
def exSchema : OpSchema :=
  { args := [⟨"x", none⟩, ⟨"scale", none⟩, ⟨"max_batch_size", some (.i 4)⟩,
             ⟨"alpha", some (.i 3)⟩, ⟨"beta", none⟩],
    deprecated := [("old_alpha", some "alpha"), ("gone", none)] }

/-- An `OpSpec` with two literal arguments and two argument inputs. -/
def exSpec : OpSpec :=
  { schema := some exSchema,
    arguments := [⟨"max_batch_size", .i 4⟩, ⟨"beta", .s "hi"⟩],
    argumentInputs := [("x", "xt"), ("scale", "st")],
    regularInputs := [⟨"data", "cpu"⟩],
    outputs := [⟨"out", "gpu"⟩] }

/-- A batch of two one-element samples. -/
def exTLScalar : TensorList := ⟨.sInt, [[1], [1]], [[.i 10], [.i 20]]⟩

/-- A batch of two rank-0 (empty-shape) samples. -/
def exTLEmptyShape : TensorList := ⟨.sInt, [[], []], [[.i 7], [.i 9]]⟩

/-- A batch with two samples of different shapes (non-uniform). -/
def exTLNonUniform : TensorList := ⟨.sInt, [[1], [2]], [[.i 5], [.i 6, .i 7]]⟩

/-- A uniform batch whose samples hold two elements each (not scalar). -/
def exTLBadShape : TensorList := ⟨.sInt, [[2], [2]], [[.i 1, .i 2], [.i 3, .i 4]]⟩

/-- A workspace binding `x` to scalars and `scale` to rank-0 samples. -/
def exWs : ArgumentWorkspace := ⟨[("x", exTLScalar), ("scale", exTLEmptyShape)]⟩

/-- A workspace binding `x` to a non-uniform batch. -/
def exWsNonUniform : ArgumentWorkspace := ⟨[("x", exTLNonUniform)]⟩

/-- A workspace binding `x` to a uniform non-scalar batch. -/
def exWsBadShape : ArgumentWorkspace := ⟨[("x", exTLBadShape)]⟩

/-- An `OpSpec` whose `alpha` argument is set, for alias-conflict scenarios. -/
def exSpecDep : OpSpec :=
  { schema := some exSchema, arguments := [⟨"alpha", .i 9⟩] }

/-- An empty `OpSpec` carrying only the example schema. -/
def exSpec0 : OpSpec := { schema := some exSchema }

/-- A construction sequence: one regular input, two argument inputs, one
output. -/
def exBuildOps : List BuildOp :=
  [.inp "data" "cpu", .argInp "x" "xt", .argInp "scale" "st", .out "out" "gpu"]

/-- The `OpSpec` built by `exBuildOps`. -/
def exSpecBuilt : OpSpec :=
  { schema := some exSchema,
    regularInputs := [⟨"data", "cpu"⟩],
    argumentInputs := [("x", "xt"), ("scale", "st")],
    outputs := [⟨"out", "gpu"⟩] }

/-- An operating system in which only the path `good` can be opened. -/
def exOSEnv : OSEnv := ⟨fun p => decide (p = "good"), "No such file or directory"⟩

/-! Claim theorems. -/

/-- Claim C1: `GetArgument<T>` resolves in exactly three tiers in this order —
a registered tensor-argument reads the per-sample value from the workspace
(requiring one); otherwise a literal argument set on the OpSpec is returned
converted; otherwise the schema's declared default is returned, failing with
`UnknownArgument` when the schema declares no such argument and `NoDefault`
when it declares no default. -/
theorem c1_getArgument_three_tier (spec : OpSpec) (tT tS : SType) (name : String) (idx : Nat) :
    (spec.hasTensorArgument name = true →
       getArgumentImpl spec tT tS name none idx = .error (.MissingContext name) ∧
       ∀ w : ArgumentWorkspace,
         getArgumentImpl spec tT tS name (some w) idx = readTensorArg spec tT name w idx) ∧
    (spec.hasTensorArgument name = false →
       (∀ a, findLocal spec name = some a →
          ∀ ws, getArgumentImpl spec tT tS name ws idx = argGet a tS) ∧
       (findLocal spec name = none →
          ∀ ws, getArgumentImpl spec tT tS name ws idx =
            (match getSchema spec with
             | .ok sch => schemaDefault sch tS name
             | .error e => .error e)) ∧
       (∀ sch, spec.schema = some sch → findLocal spec name = none →
          (schemaFindArg sch name = none →
             ∀ ws, getArgumentImpl spec tT tS name ws idx = .error (.UnknownArgument name)) ∧
          (∀ sa, schemaFindArg sch name = some sa → sa.default = none →
             ∀ ws, getArgumentImpl spec tT tS name ws idx = .error (.NoDefault name)))) := by
  constructor
  · intro ht
    exact ⟨by simp [getArgumentImpl, ht], fun w => by simp [getArgumentImpl, ht]⟩
  · intro hf
    refine ⟨?_, ?_, ?_⟩
    · intro a ha ws
      simp [getArgumentImpl, hf, ha]
    · intro hn ws
      simp [getArgumentImpl, hf, hn]
    · intro sch hs hn
      constructor
      · intro hna ws
        simp [getArgumentImpl, hf, hn, getSchema, hs, schemaDefault, hna]
      · intro sa hsa hd ws
        simp [getArgumentImpl, hf, hn, getSchema, hs, schemaDefault, hsa, hd]

/-- Witness for C1: the literal tier at a concrete spec. -/
theorem c1_witness :
    getArgumentImpl exSpec .sString .sString "beta" (some exWs) 0 = .ok (.s "hi") := by
  have h := ((c1_getArgument_three_tier exSpec .sString .sString "beta" 0).2 rfl).1
    ⟨"beta", .s "hi"⟩ rfl (some exWs)
  exact h.trans rfl

/-- Claim C4: for a registered tensor-argument, `GetArgument<T>` with a null
workspace fails with `MissingContext` and does not fall back to a literal or a
schema default. -/
theorem c4_missing_context (spec : OpSpec) (tT tS : SType) (name : String) (idx : Nat)
    (ht : spec.hasTensorArgument name = true) :
    getArgumentImpl spec tT tS name none idx = .error (.MissingContext name) := by
  simp [getArgumentImpl, ht]

/-- Witness for C4 at a concrete spec. -/
theorem c4_witness :
    getArgumentImpl exSpec .sInt .sInt "x" none 0 = .error (.MissingContext "x") :=
  c4_missing_context exSpec .sInt .sInt "x" 0 rfl

/-- Claim C5: a literal argument (not a tensor-argument) is returned as set,
and the result is identical under any two workspaces, including null. -/
theorem c5_literal_workspace_independent (spec : OpSpec) (tT tS : SType)
    (name : String) (idx : Nat) (a : Argument)
    (ht : spec.hasTensorArgument name = false)
    (hl : findLocal spec name = some a)
    (hty : a.value.stype = tS) :
    (∀ ws ws2 : Option ArgumentWorkspace,
       getArgumentImpl spec tT tS name ws idx = getArgumentImpl spec tT tS name ws2 idx) ∧
    (∀ ws, getArgumentImpl spec tT tS name ws idx = .ok a.value) := by
  constructor
  · intro ws ws2
    simp [getArgumentImpl, ht, hl]
  · intro ws
    simp [getArgumentImpl, ht, hl, argGet, hty]

/-- Witness for C5: the same literal value under a null workspace and under a
workspace holding unrelated bindings. -/
theorem c5_witness :
    getArgumentImpl exSpec .sString .sString "beta" none 0 = .ok (.s "hi") ∧
    getArgumentImpl exSpec .sString .sString "beta" (some exWsNonUniform) 0 = .ok (.s "hi") := by
  have h := c5_literal_workspace_independent exSpec .sString .sString "beta" 0
    ⟨"beta", .s "hi"⟩ rfl rfl rfl
  exact ⟨h.2 none, h.2 (some exWsNonUniform)⟩

/-- Counterexample for C2: a tensor-argument bound to a batch of empty-shape
(rank-0) samples is accepted by `GetArgument<T>`, which returns the element —
the claim says an empty per-sample shape is rejected, but the shape check
explicitly tolerates it (`volume(shape[i]) == 1 || shape[i].empty()`). -/
theorem c2_counterexample_empty_shape_accepted :
    getArgumentImpl exSpec .sInt .sInt "scale" (some exWs) 0 = .ok (.i 7) ∧
    exTLEmptyShape.shapes = [[], []] ∧
    wsLookup exWs "scale" = some exTLEmptyShape :=
  ⟨rfl, rfl, rfl⟩

/-- Claim C2 (amended): for a tensor-argument bound in the workspace with a
uniform shape, `GetArgument<T>` fails with `ShapeMismatch` naming the argument
and the batch size whenever the tensor is not scalar-shaped; a per-sample
shape holding exactly one element is accepted and an empty per-sample shape is
also accepted. -/
theorem c2_shape_mismatch (spec : OpSpec) (tT tS : SType) (name : String)
    (w : ArgumentWorkspace) (idx : Nat) (tl : TensorList) (bs : Int)
    (ht : spec.hasTensorArgument name = true)
    (hw : wsLookup w name = some tl)
    (hu : isUniform tl.shapes = true)
    (hbs : getBatchSize spec = .ok bs) :
    (tl.shapes.all scalarSample = false →
       getArgumentImpl spec tT tS name (some w) idx = .error (.ShapeMismatch name bs)) ∧
    (tl.shapes.all scalarSample = true →
       checkScalarArgumentShape tl.shapes bs name true = .ok true) := by
  constructor
  · intro hv
    simp [getArgumentImpl, ht, readTensorArg, hw, hbs, checkScalarArgumentShape, hu, hv]
  · intro hv
    simp [checkScalarArgumentShape, hu, hv]

/-- Witness for C2 (amended): a uniform two-element-per-sample batch makes
`GetArgument<T>` fail with `ShapeMismatch` naming the argument and the batch
size. -/
theorem c2_witness :
    getArgumentImpl exSpec .sInt .sInt "x" (some exWsBadShape) 0 =
      .error (.ShapeMismatch "x" 4) :=
  (c2_shape_mismatch exSpec .sInt .sInt "x" exWsBadShape 0 exTLBadShape 4
    rfl rfl rfl rfl).1 rfl

/-- Counterexample for C3: `TryGetArgument` is not non-throwing — a
tensor-argument bound to a non-uniform batch still hits the unconditional
uniformity enforcement inside `CheckScalarArgumentShape` (which is executed
even with `should_throw = false`) and fails. -/
theorem c3_counterexample_nonuniform_throws :
    tryGetArgumentImpl exSpec .sInt .sInt "x" (some exWsNonUniform) 0 =
      .error (.NotUniform "x") :=
  rfl

/-- Claim C3 (amended): `TryGetArgument` follows the same three-tier
resolution order as `GetArgument` and returns a found/not-found signal instead
of failing, provided the OpSpec has a schema, the internal `max_batch_size`
lookup succeeds, and a bound tensor-argument is uniformly shaped with an
element at the requested sample index; whenever `GetArgument` succeeds with
`v`, `TryGetArgument` reports `v` as found. -/
theorem c3_tryGet_no_throw (spec : OpSpec) (tT tS : SType) (name : String)
    (ws : Option ArgumentWorkspace) (idx : Nat) (sch : OpSchema) (bs : Int)
    (hsch : spec.schema = some sch)
    (hbs : getBatchSize spec = .ok bs)
    (htens : ∀ w, ws = some w → spec.hasTensorArgument name = true →
       ∃ tl, wsLookup w name = some tl ∧ isUniform tl.shapes = true ∧
             (tensorElem tl idx).isSome = true) :
    (∃ r, tryGetArgumentImpl spec tT tS name ws idx = .ok r) ∧
    (∀ v, getArgumentImpl spec tT tS name ws idx = .ok v →
       tryGetArgumentImpl spec tT tS name ws idx = .ok (some v)) := by
  have hg : getSchema spec = .ok sch := by simp [getSchema, hsch]
  by_cases ht : spec.hasTensorArgument name = true
  · cases ws with
    | none =>
      constructor
      · exact ⟨none, by simp [tryGetArgumentImpl, ht]⟩
      · intro v hv
        simp [getArgumentImpl, ht] at hv
    | some w =>
      obtain ⟨tl, hw, hu, he⟩ := htens w rfl ht
      obtain ⟨v0, hv0⟩ := Option.isSome_iff_exists.mp he
      by_cases hvalid : tl.shapes.all scalarSample = true
      · constructor
        · by_cases hdt : tl.dtype = tT
          · exact ⟨some v0, by
              simp [tryGetArgumentImpl, ht, hw, hbs, checkScalarArgumentShape,
                    hu, hvalid, hdt, hv0]⟩
          · exact ⟨none, by
              simp [tryGetArgumentImpl, ht, hw, hbs, checkScalarArgumentShape,
                    hu, hvalid, hdt]⟩
        · intro v hv
          simp [getArgumentImpl, ht, readTensorArg, hw, hbs,
                checkScalarArgumentShape, hu, hvalid] at hv
          by_cases hdt : tl.dtype = tT
          · rw [if_pos hdt, hv0] at hv
            simp at hv
            simp [tryGetArgumentImpl, ht, hw, hbs, checkScalarArgumentShape,
                  hu, hvalid, hdt, hv0, hv]
          · rw [if_neg hdt] at hv
            exact absurd hv (by simp)
      · have hvf : tl.shapes.all scalarSample = false := by
          simpa using hvalid
        constructor
        · exact ⟨none, by
            simp [tryGetArgumentImpl, ht, hw, hbs, checkScalarArgumentShape,
                  hu, hvf]⟩
        · intro v hv
          simp [getArgumentImpl, ht, readTensorArg, hw, hbs,
                checkScalarArgumentShape, hu, hvf] at hv
  · have hf : spec.hasTensorArgument name = false := by simpa using ht
    constructor
    · cases hl : findLocal spec name with
      | some a =>
        by_cases hty : a.value.stype = tS
        · exact ⟨some a.value, by simp [tryGetArgumentImpl, hf, hg, hl, hty]⟩
        · exact ⟨none, by simp [tryGetArgumentImpl, hf, hg, hl, hty]⟩
      | none =>
        cases hfa : schemaFindArg sch name with
        | none =>
          exact ⟨none, by simp [tryGetArgumentImpl, hf, hg, hl, hfa]⟩
        | some sa =>
          cases hd : sa.default with
          | none =>
            exact ⟨none, by
              simp [tryGetArgumentImpl, hf, hg, hl, hfa, schemaHasDefault,
                    schemaFindDefault, hd]⟩
          | some d =>
            by_cases hty : d.stype = tS
            · exact ⟨some d, by
                simp [tryGetArgumentImpl, hf, hg, hl, hfa, schemaHasDefault,
                      schemaFindDefault, hd, hty]⟩
            · exact ⟨none, by
                simp [tryGetArgumentImpl, hf, hg, hl, hfa, schemaHasDefault,
                      schemaFindDefault, hd, hty]⟩
    · intro v hv
      simp [getArgumentImpl, hf] at hv
      cases hl : findLocal spec name with
      | some a =>
        rw [hl] at hv
        simp [argGet] at hv
        by_cases hty : a.value.stype = tS
        · rw [if_pos hty] at hv
          simp at hv
          subst hv
          simp [tryGetArgumentImpl, hf, hg, hl, hty]
        · rw [if_neg hty] at hv
          exact absurd hv (by simp)
      | none =>
        rw [hl, hg] at hv
        simp [schemaDefault] at hv
        cases hfa : schemaFindArg sch name with
        | none =>
          simp [hfa] at hv
        | some sa =>
          simp [hfa] at hv
          cases hd : sa.default with
          | none =>
            simp [hd] at hv
          | some d =>
            simp [hd] at hv
            by_cases hty : d.stype = tS
            · rw [if_pos hty] at hv
              simp at hv
              subst hv
              simp [tryGetArgumentImpl, hf, hg, hl, hfa, schemaHasDefault,
                    schemaFindDefault, hd, hty]
            · rw [if_neg hty] at hv
              exact absurd hv (by simp)

/-- Witness for C3 (amended): on a well-formed workspace, `TryGetArgument`
reports the value `GetArgument` returns. -/
theorem c3_witness :
    tryGetArgumentImpl exSpec .sInt .sInt "x" (some exWs) 0 = .ok (some (.i 10)) := by
  have h := c3_tryGet_no_throw exSpec .sInt .sInt "x" (some exWs) 0 exSchema 4
    rfl rfl (fun w hw _ => by
      cases hw
      exact ⟨exTLScalar, rfl, rfl, rfl⟩)
  exact h.2 (.i 10) rfl

/-- Claim C6: adding an argument under a name that is already present —
directly, via a deprecated alias whose target was already set, or after the
name was already set through a deprecated alias — fails with
`ConflictingSpecification` at the second add call. -/
theorem c6_conflicting_add (spec : OpSpec) (sch : OpSchema)
    (hs : spec.schema = some sch) (name oldName newName : String) (v : Val) :
    ((findLocal spec name).isSome = true →
       ∃ m, addArg spec name v = .error (.ConflictingSpecification m)) ∧
    ((spec.setThroughDeprecated.find? (fun p => decide (p.1 = name))).isSome = true →
       ∃ m, addArg spec name v = .error (.ConflictingSpecification m)) ∧
    (sch.deprecated.find? (fun p => decide (p.1 = oldName)) = some (oldName, some newName) →
       findLocal spec oldName = none →
       spec.setThroughDeprecated.find? (fun p => decide (p.1 = oldName)) = none →
       ((findLocal spec newName).isSome = true ∨
        (spec.setThroughDeprecated.find? (fun p => decide (p.1 = newName))).isSome = true) →
       addArg spec oldName v = .error (.ConflictingSpecification newName)) := by
  refine ⟨?_, ?_, ?_⟩
  · intro h
    cases hdep : spec.setThroughDeprecated.find? (fun p => decide (p.1 = name)) with
    | some p =>
      exact ⟨p.1, by simp [addArg, enforceNoAliasWithDeprecated, hdep]⟩
    | none =>
      exact ⟨name, by simp [addArg, enforceNoAliasWithDeprecated, hdep, h]⟩
  · intro h
    cases hdep : spec.setThroughDeprecated.find? (fun p => decide (p.1 = name)) with
    | some p =>
      exact ⟨p.1, by simp [addArg, enforceNoAliasWithDeprecated, hdep]⟩
    | none =>
      rw [hdep] at h
      simp at h
  · intro hdep hlo hso hconf
    have hd : schemaDeprecation spec oldName = some (some newName) := by
      simp [schemaDeprecation, hs, hdep]
    have hc : ((findLocal spec newName).isSome
        || (spec.setThroughDeprecated.find? (fun p => decide (p.1 = newName))).isSome) = true := by
      rcases hconf with h | h <;> simp [h]
    simp [addArg, enforceNoAliasWithDeprecated, hso, hlo, setInitArg, hd, hc]

/-- Witness for C6: a direct duplicate add fails, and adding through the
deprecated alias `old_alpha` when `alpha` is already set fails naming the
target. -/
theorem c6_witness :
    (∃ m, addArg exSpecDep "alpha" (.i 1) = .error (.ConflictingSpecification m)) ∧
    addArg exSpecDep "old_alpha" (.i 1) = .error (.ConflictingSpecification "alpha") := by
  have h := c6_conflicting_add exSpecDep exSchema rfl "alpha" "old_alpha" "alpha" (.i 1)
  exact ⟨h.1 rfl, h.2.2 rfl rfl rfl (Or.inl rfl)⟩

/-- Counterexample for C7: with the threshold at maximum but the hardware tier
applicable, a JPEG sample selects the hardware backend, not host-software —
the hardware tier is evaluated first and does not depend on the threshold. -/
theorem c7_counterexample_hw_overrides_threshold :
    selectBackend ⟨true, uintMax⟩ ⟨.jpeg, 1000, true⟩ = .hardware ∧
    Backend.hardware ≠ Backend.host :=
  ⟨rfl, by decide⟩

/-- Claim C7 (amended): a threshold at the maximum value makes every JPEG
sample for which the hardware tier is not applicable select the host-software
backend regardless of size; a threshold of zero forces the hybrid-or-hardware
tier for every JPEG sample with a nonzero pixel count. -/
theorem c7_threshold_dispatch (cfg : DispatchConfig) (s : DecodeSample) :
    (cfg.threshold = uintMax → s.pixelCount ≤ uintMax → hwApplicable cfg s = false →
       selectBackend cfg s = .host) ∧
    (cfg.threshold = 0 → s.format = .jpeg → 0 < s.pixelCount →
       selectBackend cfg s ≠ .host) := by
  constructor
  · intro hth hpc hnw
    have hnl : ¬ (uintMax < s.pixelCount) := Nat.not_lt.mpr hpc
    have hh : hybridApplicable cfg s = false := by
      simp [hybridApplicable, hth, hnl]
    simp [selectBackend, hnw, hh]
  · intro hth hf hpc
    cases hhw : hwApplicable cfg s with
    | true => simp [selectBackend, hhw]
    | false =>
      have hh : hybridApplicable cfg s = true := by
        simp [hybridApplicable, hth, hpc, hf, hybridSupported]
      simp [selectBackend, hhw, hh]

/-- Witness for C7 (amended) at concrete configurations without hardware
capability. -/
theorem c7_witness :
    selectBackend ⟨false, uintMax⟩ ⟨.jpeg, 123, false⟩ = .host ∧
    selectBackend ⟨false, 0⟩ ⟨.jpeg, 5, false⟩ ≠ .host := by
  have h1 := (c7_threshold_dispatch ⟨false, uintMax⟩ ⟨.jpeg, 123, false⟩).1
  have h2 := (c7_threshold_dispatch ⟨false, 0⟩ ⟨.jpeg, 5, false⟩).2
  exact ⟨h1 rfl (by decide) rfl, h2 rfl rfl (by decide)⟩

/-- Claim C8: constructing the byte-source file stream on a path that cannot
be opened fails with a construction error whose message names the path and the
underlying OS error text; on success the stream is open. -/
theorem c8_file_open (env : OSEnv) (path : String) :
    (env.openOk path = false →
       mkStdFileStream env path =
         .error ("Could not open file " ++ path ++ ": " ++ env.errText)) ∧
    (env.openOk path = true →
       ∃ st, mkStdFileStream env path = .ok st ∧ st.path = path ∧ st.fpOpen = true) := by
  constructor
  · intro h
    simp [mkStdFileStream, h]
  · intro h
    exact ⟨⟨path, true⟩, by simp [mkStdFileStream, h], rfl, rfl⟩

/-- Witness for C8: a failing and a succeeding open in a concrete OS
environment. -/
theorem c8_witness :
    mkStdFileStream exOSEnv "missing" =
      .error ("Could not open file " ++ "missing" ++ ": " ++ exOSEnv.errText) ∧
    ∃ st, mkStdFileStream exOSEnv "good" = .ok st ∧ st.path = "good" ∧ st.fpOpen = true :=
  ⟨(c8_file_open exOSEnv "missing").1 rfl, (c8_file_open exOSEnv "good").2 rfl⟩

/-- The input-arity bookkeeping of any `OpSpec` state: the inputs split into
regular inputs followed by argument inputs. -/
theorem inputCounts_split (spec : OpSpec) :
    numInput spec = numRegularInput spec + numArgumentInput spec := by
  have h : numInput spec = spec.regularInputs.length + numArgumentInput spec := by
    simp [numInput, inputsList, numArgumentInput]
  simp [numRegularInput, h]

/-- Claim C9: after any sequence of AddInput/AddArgumentInput/AddOutput calls,
argument inputs occupy the tail of the input sequence:
`NumInput = NumRegularInput + NumArgumentInput`, `IsArgumentInput idx` holds
exactly for `NumRegularInput <= idx < NumInput`, and `ArgumentInputName idx`
returns the name stored at position `idx - NumRegularInput` of the
argument-input sequence. -/
theorem c9_argument_input_tail (spec0 : OpSpec) (ops : List BuildOp) (spec : OpSpec)
    (_hb : applyOps spec0 ops = .ok spec) :
    (numInput spec = numRegularInput spec + numArgumentInput spec) ∧
    (∀ idx, isArgumentInput spec idx = .ok true ↔
       (numRegularInput spec ≤ idx ∧ idx < numInput spec)) ∧
    (∀ idx p, numRegularInput spec ≤ idx → idx < numInput spec →
       spec.argumentInputs.get? (idx - numRegularInput spec) = some p →
       argumentInputName spec idx = .ok p.1) := by
  refine ⟨inputCounts_split spec, ?_, ?_⟩
  · intro idx
    by_cases hidx : idx < numInput spec
    · simp [isArgumentInput, hidx]
    · simp [isArgumentInput, hidx]
  · intro idx p h1 h2 hg
    rw [List.get?_eq_getElem?] at hg
    simp [argumentInputName, isArgumentInput, h2, h1, hg]

/-- Witness for C9 on a concretely built `OpSpec`. -/
theorem c9_witness :
    numInput exSpecBuilt = numRegularInput exSpecBuilt + numArgumentInput exSpecBuilt ∧
    isArgumentInput exSpecBuilt 1 = .ok true ∧
    argumentInputName exSpecBuilt 2 = .ok "scale" := by
  have h := c9_argument_input_tail exSpec0 exBuildOps exSpecBuilt rfl
  exact ⟨h.1, (h.2.1 1).mpr (by decide),
    h.2.2 2 ("scale", "st") (by decide) (by decide) rfl⟩

/-- Claim C10: when a literal argument with the requested name exists but its
stored representation type differs from the requested storage type,
`TryGetArgument` returns not-found without consulting the schema default; the
schema default is consulted only when no local argument exists. -/
theorem c10_try_local_type_mismatch (spec : OpSpec) (tT tS : SType) (name : String)
    (ws : Option ArgumentWorkspace) (idx : Nat) (sch : OpSchema)
    (hsch : spec.schema = some sch)
    (ht : spec.hasTensorArgument name = false) :
    (∀ a, findLocal spec name = some a → a.value.stype ≠ tS →
       tryGetArgumentImpl spec tT tS name ws idx = .ok none) ∧
    (findLocal spec name = none →
       ∀ d, schemaFindDefault sch name = some d → d.stype = tS →
         tryGetArgumentImpl spec tT tS name ws idx = .ok (some d)) := by
  have hg : getSchema spec = .ok sch := by simp [getSchema, hsch]
  constructor
  · intro a ha hty
    simp [tryGetArgumentImpl, ht, hg, ha, hty]
  · intro hn d hd hty
    cases hfa : schemaFindArg sch name with
    | none =>
      rw [schemaFindDefault, hfa] at hd
      exact absurd hd (by simp)
    | some sa =>
      have hsd : sa.default = some d := by
        rw [schemaFindDefault, hfa] at hd
        exact hd
      simp [tryGetArgumentImpl, ht, hg, hn, hfa, schemaHasDefault,
            schemaFindDefault, hsd, hty]

/-- Witness for C10: a locally stored string argument requested as an integer
is reported not-found even though the schema exists, while a name with no
local argument falls through to its schema default. -/
theorem c10_witness :
    tryGetArgumentImpl exSpec .sInt .sInt "beta" none 0 = .ok none ∧
    tryGetArgumentImpl exSpec .sInt .sInt "alpha" none 0 = .ok (some (.i 3)) := by
  have h := c10_try_local_type_mismatch exSpec .sInt .sInt "beta" none 0 exSchema rfl rfl
  have h2 := c10_try_local_type_mismatch exSpec .sInt .sInt "alpha" none 0 exSchema rfl rfl
  exact ⟨h.1 ⟨"beta", .s "hi"⟩ rfl (by decide), h2.2 rfl (.i 3) rfl rfl⟩

end Dali
